import Mathlib

/-!
Verification of the reminder-scheduling core of `telegram_reminder_agent.py`.

The embedding models, faithfully to the source:
* Python `datetime.fromisoformat` on the ISO-8601 strings the extractor
  returns (`PyDatetime`, `fromisoformat`), including calendar validation;
* the UTC-tagging normalization `remind_time.replace(tzinfo=timezone.utc)`
  applied when the parsed timestamp is naive (`normalizeUTC`);
* the job queue used through `context.job_queue.run_once` as a registry of
  pending one-shot jobs fired when the clock passes their run time
  (`JobQueue`, `JobQueue.runOnce`, `JobQueue.firedAt`, `JobQueue.advanceTo`);
* the handler `handle_message` (extraction stubbed as a parameter, the
  current instant passed explicitly) and the callback `send_reminder`.
-/

/-- Model of a Python `datetime` value: Gregorian calendar fields plus an
optional fixed UTC offset in minutes (`tzinfo`); `none` means naive. -/
structure PyDatetime where
  year : Nat
  month : Nat
  day : Nat
  hour : Nat
  minute : Nat
  second : Nat
  tzOffsetMinutes : Option Int
deriving Repr, DecidableEq

/-- Numeric value of a decimal digit character. -/
def digitVal (c : Char) : Option Nat :=
  if c.isDigit then some (c.toNat - 48) else none

/-- Read exactly `k` decimal digits, accumulating into `acc`. -/
def parseDigitsAux : Nat → Nat → List Char → Option (Nat × List Char)
  | 0, acc, cs => some (acc, cs)
  | k + 1, acc, c :: cs =>
    match digitVal c with
    | some d => parseDigitsAux k (acc * 10 + d) cs
    | none => none
  | _ + 1, _, [] => none

/-- Read a fixed-width decimal number of `k` digits. -/
def parseFixed (k : Nat) (cs : List Char) : Option (Nat × List Char) :=
  parseDigitsAux k 0 cs

/-- Consume one expected character. -/
def expect (c : Char) : List Char → Option (List Char)
  | x :: xs => if x = c then some xs else none
  | [] => none

/-- Gregorian leap-year test, as Python's `calendar.isleap`. -/
def isLeap (y : Nat) : Bool :=
  (y % 4 == 0 && y % 100 != 0) || y % 400 == 0

/-- Number of days in a month of a given year. -/
def daysInMonth (y m : Nat) : Nat :=
  if m = 2 then (if isLeap y then 29 else 28)
  else if m = 4 ∨ m = 6 ∨ m = 9 ∨ m = 11 then 30
  else 31

/-- Range validation performed by the `datetime` constructor
(`MINYEAR = 1`; the four-digit year field bounds the year above). -/
def validDate (y mo d : Nat) : Bool :=
  decide (1 ≤ y ∧ 1 ≤ mo ∧ mo ≤ 12 ∧ 1 ≤ d ∧ d ≤ daysInMonth y mo)

/-- `HH:MM[:SS]` time-of-day component. -/
def parseHMS (cs : List Char) : Option (Nat × Nat × Nat × List Char) := do
  let (h, cs) ← parseFixed 2 cs
  let cs ← expect ':' cs
  let (m, cs) ← parseFixed 2 cs
  match expect ':' cs with
  | some cs2 => do
    let (s, cs3) ← parseFixed 2 cs2
    pure (h, m, s, cs3)
  | none => pure (h, m, 0, cs)

/-- Optional trailing UTC offset: empty (naive), `Z`, or `±HH:MM` with the
offset strictly inside a day, as `datetime.fromisoformat` accepts. -/
def parseOffset (cs : List Char) : Option (Option Int × List Char) :=
  match cs with
  | [] => some (none, [])
  | 'Z' :: rest => some (some 0, rest)
  | '+' :: rest => do
    let (oh, cs) ← parseFixed 2 rest
    let cs ← expect ':' cs
    let (om, cs) ← parseFixed 2 cs
    if oh ≤ 23 ∧ om ≤ 59 then pure (some ((oh : Int) * 60 + om), cs) else none
  | '-' :: rest => do
    let (oh, cs) ← parseFixed 2 rest
    let cs ← expect ':' cs
    let (om, cs) ← parseFixed 2 cs
    if oh ≤ 23 ∧ om ≤ 59 then pure (some (-((oh : Int) * 60 + om)), cs) else none
  | _ => none

/-- Model of `datetime.fromisoformat` on the formats in play:
`YYYY-MM-DD`, optionally followed by a separator and `HH:MM[:SS]`,
optionally followed by `Z` or `±HH:MM`. Returns `none` (the embedding of a
raised `ValueError`) on anything else, including out-of-range fields. -/
def fromisoformat (s : String) : Option PyDatetime := do
  let cs := s.toList
  let (y, cs) ← parseFixed 4 cs
  let cs ← expect '-' cs
  let (mo, cs) ← parseFixed 2 cs
  let cs ← expect '-' cs
  let (d, cs) ← parseFixed 2 cs
  match cs with
  | [] =>
    if validDate y mo d then
      some ⟨y, mo, d, 0, 0, 0, none⟩
    else none
  | sep :: rest =>
    if sep = 'T' ∨ sep = ' ' then do
      let (h, mi, sec, cs) ← parseHMS rest
      let (off, cs) ← parseOffset cs
      match cs with
      | [] =>
        if validDate y mo d ∧ h ≤ 23 ∧ mi ≤ 59 ∧ sec ≤ 59 then
          some ⟨y, mo, d, h, mi, sec, off⟩
        else none
      | _ => none
    else none

/-- Days since 1970-01-01 of a Gregorian date (civil-from-days inverse);
all intermediate divisions act on nonnegative values for years ≥ 1. -/
def daysFromCivil (y m d : Int) : Int :=
  let y2 := if m ≤ 2 then y - 1 else y
  let era := y2 / 400
  let yoe := y2 - era * 400
  let mp := (m + 9) % 12
  let doy := (153 * mp + 2) / 5 + d - 1
  let doe := yoe * 365 + yoe / 4 - yoe / 100 + doy
  era * 146097 + doe - 719468

/-- Seconds since the epoch of the clock fields read literally (a naive
datetime interpreted as UTC). -/
def naiveEpochSeconds (dt : PyDatetime) : Int :=
  daysFromCivil dt.year dt.month dt.day * 86400
    + (dt.hour : Int) * 3600 + (dt.minute : Int) * 60 + (dt.second : Int)

/-- Absolute instant denoted by a datetime, honouring its UTC offset; this
is the value Python's aware-datetime subtraction and equality compare. -/
def awareInstant (dt : PyDatetime) : Int :=
  naiveEpochSeconds dt - 60 * dt.tzOffsetMinutes.getD 0

/-- The normalization in `handle_message`:
`if remind_time.tzinfo is None: remind_time = remind_time.replace(tzinfo=timezone.utc)`.
A naive datetime is tagged UTC with its clock fields untouched. -/
def normalizeUTC (dt : PyDatetime) : PyDatetime :=
  if dt.tzOffsetMinutes.isNone then { dt with tzOffsetMinutes := some 0 } else dt

example : fromisoformat "2024-01-02T14:00:00Z" =
    some ⟨2024, 1, 2, 14, 0, 0, some 0⟩ := by rfl

example : fromisoformat "not-a-date" = none := by rfl

example : awareInstant ⟨2024, 1, 2, 14, 0, 0, some 0⟩ = 1704204000 := by rfl

/-- A pending one-shot job in the queue, as created by
`context.job_queue.run_once(send_reminder, when=delay, chat_id=chat_id, data=task)`:
`delay` is the `when=` timedelta in seconds exactly as the handler passes it,
`runAt` the absolute instant `now + delay` the timer is armed for. -/
structure ScheduledJob where
  id : Nat
  chat_id : Int
  data : String
  delay : Int
  runAt : Int
deriving Repr, DecidableEq

/-- The job queue: registry of pending one-shot jobs plus a fresh-id
counter (each `run_once` call creates a new distinct `Job` handle). -/
structure JobQueue where
  jobs : List ScheduledJob
  nextId : Nat
deriving Repr, DecidableEq

/-- `run_once`: arm a one-shot job for `now + delay` and hand back its
fresh handle. Non-blocking: it never runs the callback itself. -/
def JobQueue.runOnce (q : JobQueue) (chat : Int) (data : String)
    (delay now : Int) : JobQueue × Nat :=
  ({ jobs := q.jobs ++
       [{ id := q.nextId, chat_id := chat, data := data,
          delay := delay, runAt := now + delay }],
     nextId := q.nextId + 1 },
   q.nextId)

/-- The jobs due once the clock has reached `t`: their armed run time has
passed. Each fires its callback once and is then removed. This is the
ideal awaited-timer semantics — a timer armed for the present or future
and awaited to its deadline. Misfire handling lies outside the model:
with the default `job_kwargs` the source passes, the framework applies a
short misfire grace and can skip, rather than run, a job that was armed
already well past its run time, so nothing here asserts how the program
treats past-due arming. -/
def JobQueue.firedAt (q : JobQueue) (t : Int) : List ScheduledJob :=
  q.jobs.filter (fun j => j.runAt ≤ t)

/-- An outbound Telegram message: `bot.send_message(chat_id, text=...)`. -/
structure Outbound where
  chat_id : Int
  text : String
deriving Repr, DecidableEq

/-- `send_reminder`: the delivery callback; sends
`f"Reminder: {job.data}"` to `job.chat_id`. -/
def send_reminder (job : ScheduledJob) : Outbound :=
  { chat_id := job.chat_id, text := "Reminder: " ++ job.data }

/-- Advance the simulated clock to `t`: every due job fires `send_reminder`
exactly once and is released from the registry (ideal awaited-timer
semantics; see `JobQueue.firedAt` for the misfire-grace boundary). -/
def JobQueue.advanceTo (q : JobQueue) (t : Int) : JobQueue × List Outbound :=
  ({ jobs := q.jobs.filter (fun j => ¬ j.runAt ≤ t), nextId := q.nextId },
   (q.firedAt t).map send_reminder)

/-- `Job.schedule_removal`: cancel the pending job with the given handle. -/
def JobQueue.schedule_removal (q : JobQueue) (i : Nat) : JobQueue :=
  { q with jobs := q.jobs.filter (fun j => j.id ≠ i) }

/-- Queue well-formedness: every pending job was issued by the counter. -/
def JobQueue.WF (q : JobQueue) : Prop :=
  ∀ j ∈ q.jobs, j.id < q.nextId

/-- The structured output of the extraction chain
(`ResponseSchema` fields `task` and `time`). The chain itself is an
external capability; the handler consumes its parsed result. -/
structure Extraction where
  task : String
  time : String
deriving Repr, DecidableEq

/-- An incoming Telegram update as the handler reads it:
`update.message.text` and `update.effective_chat.id`. -/
structure Msg where
  text : String
  chat_id : Int
deriving Repr, DecidableEq

/-- The extraction-stage failure the handler can hit: the timestamp string
the chain returned does not parse as a calendar instant
(`datetime.fromisoformat` raising `ValueError`, propagated to the handler
caller as a value in this embedding). -/
inductive ExtractionError where
  | malformedTimestamp
deriving Repr, DecidableEq

/-- Left zero-pad to two digits. -/
def pad2 (n : Nat) : String :=
  if n < 10 then "0" ++ toString n else toString n

/-- Left zero-pad to four digits. -/
def pad4 (n : Nat) : String :=
  if n < 10 then "000" ++ toString n
  else if n < 100 then "00" ++ toString n
  else if n < 1000 then "0" ++ toString n
  else toString n

/-- Offset suffix of `datetime.isoformat`: empty when naive, `±HH:MM`
when aware. -/
def offsetSuffix : Option Int → String
  | none => ""
  | some o =>
    if 0 ≤ o then "+" ++ pad2 (o / 60).toNat ++ ":" ++ pad2 (o % 60).toNat
    else "-" ++ pad2 ((-o) / 60).toNat ++ ":" ++ pad2 ((-o) % 60).toNat

/-- `datetime.isoformat` for whole-second datetimes. -/
def isoformat (dt : PyDatetime) : String :=
  pad4 dt.year ++ "-" ++ pad2 dt.month ++ "-" ++ pad2 dt.day ++ "T"
    ++ pad2 dt.hour ++ ":" ++ pad2 dt.minute ++ ":" ++ pad2 dt.second
    ++ offsetSuffix dt.tzOffsetMinutes

/-- What a successful `handle_message` run produced: the updated job
queue, the handle of the job it armed, the normalized reminder time, and
the acknowledgment text replied to the sender. -/
structure HandlerOutput where
  queue : JobQueue
  jobId : Nat
  remind_time : PyDatetime
  reply : String
deriving Repr, DecidableEq

/-- The handler, line for line: run the extraction chain on the message
text, read `task` and `time`, parse the timestamp, tag naive timestamps
UTC, compute `delay = remind_time - now`, arm a one-shot job carrying
`chat_id` and `data=task`, and acknowledge. The chain is a parameter
(stub extractor) and the current instant is passed explicitly. -/
def handle_message (extract : String → Extraction) (now : Int) (msg : Msg)
    (q : JobQueue) : Except ExtractionError HandlerOutput :=
  let parsed := extract msg.text
  let task := parsed.task
  let time_str := parsed.time
  match fromisoformat time_str with
  | none => .error .malformedTimestamp
  | some dt =>
    let remind_time := normalizeUTC dt
    let chat_id := msg.chat_id
    let delay := awareInstant remind_time - now
    let armed := q.runOnce chat_id task delay now
    .ok { queue := armed.1, jobId := armed.2, remind_time := remind_time,
          reply := "Got it! I\x27ll remind you to " ++ task ++ " at "
            ++ isoformat remind_time }

/-- The job that `handle_message` arms on a successful parse. -/
def mkJob (q : JobQueue) (now : Int) (chat : Int) (task : String)
    (dt : PyDatetime) : ScheduledJob :=
  { id := q.nextId, chat_id := chat, data := task,
    delay := awareInstant (normalizeUTC dt) - now,
    runAt := now + (awareInstant (normalizeUTC dt) - now) }

theorem mkJob_runAt (q : JobQueue) (now : Int) (chat : Int) (task : String)
    (dt : PyDatetime) :
    (mkJob q now chat task dt).runAt = awareInstant (normalizeUTC dt) := by
  simp [mkJob]

theorem mkJob_id (q : JobQueue) (now : Int) (chat : Int) (task : String)
    (dt : PyDatetime) :
    (mkJob q now chat task dt).id = q.nextId := rfl

theorem mkJob_data (q : JobQueue) (now : Int) (chat : Int) (task : String)
    (dt : PyDatetime) :
    (mkJob q now chat task dt).data = task := rfl

theorem handle_message_ok (extract : String → Extraction) (now : Int)
    (msg : Msg) (q : JobQueue) (dt : PyDatetime)
    (hp : fromisoformat (extract msg.text).time = some dt) :
    handle_message extract now msg q = .ok
      { queue := ⟨q.jobs ++ [mkJob q now msg.chat_id (extract msg.text).task dt],
                  q.nextId + 1⟩,
        jobId := q.nextId,
        remind_time := normalizeUTC dt,
        reply := "Got it! I\x27ll remind you to " ++ (extract msg.text).task
          ++ " at " ++ isoformat (normalizeUTC dt) } := by
  simp [handle_message, hp, JobQueue.runOnce, mkJob]

theorem filter_beq_nil (l : List ScheduledJob) (n : Nat)
    (h : ∀ x ∈ l, x.id ≠ n) :
    l.filter (fun x => x.id == n) = [] := by
  apply List.filter_eq_nil_iff.mpr
  intro a ha
  simpa using h a ha

/-- Shared inversion of a successful handler run: advancing the clock to
any instant `t` at or past the normalized fire time finds exactly the one
job the handler armed among those due with its handle, and the registry it
leaves behind holds no job with that handle any more. -/
theorem handler_new_job_spec
    (extract : String → Extraction) (now : Int) (msg : Msg) (q : JobQueue)
    (o : HandlerOutput) (t : Int) (hwf : q.WF)
    (hok : handle_message extract now msg q = .ok o)
    (ht : awareInstant o.remind_time ≤ t) :
    ∃ dt, fromisoformat (extract msg.text).time = some dt
      ∧ o.remind_time = normalizeUTC dt
      ∧ o.jobId = q.nextId
      ∧ (o.queue.firedAt t).filter (fun j => j.id == o.jobId)
          = [mkJob q now msg.chat_id (extract msg.text).task dt]
      ∧ ∀ j ∈ ((o.queue.advanceTo t).1).jobs, j.id ≠ o.jobId := by
  cases hp : fromisoformat (extract msg.text).time with
  | none => simp [handle_message, hp] at hok
  | some dt =>
    rw [handle_message_ok extract now msg q dt hp] at hok
    injection hok with hok
    subst hok
    have hfresh : ∀ x ∈ q.jobs, x.id ≠ q.nextId := by
      intro x hx
      exact Nat.ne_of_lt (hwf x hx)
    have htd : awareInstant (normalizeUTC dt) ≤ t := ht
    refine ⟨dt, rfl, rfl, rfl, ?_, ?_⟩
    · simp only [JobQueue.firedAt, List.filter_append, List.filter_filter]
      rw [List.filter_eq_nil_iff.mpr (by
        intro a ha
        simp only [Bool.and_eq_true, beq_iff_eq, decide_eq_true_eq, not_and]
        intro hid
        exact absurd hid (hfresh a ha))]
      simp [List.filter, mkJob_runAt, mkJob_id, mkJob_data, htd]
    · intro j hj
      simp only [JobQueue.advanceTo, List.filter_append, List.mem_append] at hj
      rcases hj with hj | hj
      · exact hfresh j (List.mem_of_mem_filter hj)
      · simp [mkJob_runAt, htd] at hj

/-- Claim C1: for every input message whose extraction parses successfully,
running the handler and then advancing the clock to the extracted fire
instant invokes the delivery callback on a job carrying exactly the
extracted task text, exactly once, and the job is released so it can never
fire again. -/
theorem reminder_fires_exactly_once_with_task
    (extract : String → Extraction) (now : Int) (msg : Msg) (q : JobQueue)
    (o : HandlerOutput) (hwf : q.WF)
    (hok : handle_message extract now msg q = .ok o) :
    ((o.queue.firedAt (awareInstant o.remind_time)).filter
        (fun j => j.id == o.jobId)).map (fun j => j.data)
      = [(extract msg.text).task]
    ∧ ∀ j ∈ ((o.queue.advanceTo (awareInstant o.remind_time)).1).jobs,
        j.id ≠ o.jobId := by
  obtain ⟨dt, _, _, _, hfil, hrel⟩ :=
    handler_new_job_spec extract now msg q o (awareInstant o.remind_time)
      hwf hok le_rfl
  exact ⟨by rw [hfil]; simp [mkJob_data], hrel⟩

/-- A stub extractor that returns a fixed structured result, as the
testable-properties scenario prescribes. -/
def extractStub (e : Extraction) : String → Extraction := fun _ => e

/-- The scenario extraction: task `call Sam`, time `2024-01-02T14:00:00Z`. -/
def exCallSam : Extraction := ⟨"call Sam", "2024-01-02T14:00:00Z"⟩

/-- The scenario incoming message, in chat 42. -/
def msgCallSam : Msg := ⟨"remind me to call Sam tomorrow at 2pm UTC", 42⟩

/-- An empty job queue. -/
def emptyQueue : JobQueue := ⟨[], 0⟩

/-- `now` = 2024-01-01T00:00:00Z as epoch seconds. -/
def nowJan1 : Int := 1704067200

theorem emptyQueue_wf : emptyQueue.WF := by
  intro j hj
  simp [emptyQueue] at hj

/-- What the handler computes on the scenario input (38-hour delay). -/
def outCallSam : HandlerOutput :=
  { queue := ⟨[⟨0, 42, "call Sam", 136800, 1704204000⟩], 1⟩,
    jobId := 0,
    remind_time := ⟨2024, 1, 2, 14, 0, 0, some 0⟩,
    reply := "Got it! I\x27ll remind you to call Sam at 2024-01-02T14:00:00+00:00" }

/-- Claim C1 witness: on the spec scenario (stub extraction `call Sam` /
`2024-01-02T14:00:00Z`, now 2024-01-01T00:00:00Z) the armed job fires with
task `call Sam` exactly once when the clock reaches the fire instant. -/
theorem reminder_fires_exactly_once_with_task_witness :
    ((outCallSam.queue.firedAt (awareInstant outCallSam.remind_time)).filter
        (fun j => j.id == outCallSam.jobId)).map (fun j => j.data)
      = [(extractStub exCallSam msgCallSam.text).task]
    ∧ ∀ j ∈ ((outCallSam.queue.advanceTo
        (awareInstant outCallSam.remind_time)).1).jobs,
        j.id ≠ outCallSam.jobId :=
  reminder_fires_exactly_once_with_task (extractStub exCallSam) nowJan1
    msgCallSam emptyQueue outCallSam emptyQueue_wf (by rfl)

/-- Claim C9: the delivery of a scheduled reminder is addressed to the
conversation the message came from: firing the handler-armed job calls
`send_reminder` on a job whose chat id is the originating chat id. -/
theorem reminder_delivered_to_originating_chat
    (extract : String → Extraction) (now : Int) (msg : Msg) (q : JobQueue)
    (o : HandlerOutput) (hwf : q.WF)
    (hok : handle_message extract now msg q = .ok o) :
    ((o.queue.firedAt (awareInstant o.remind_time)).filter
        (fun j => j.id == o.jobId)).map (fun j => (send_reminder j).chat_id)
      = [msg.chat_id] := by
  obtain ⟨dt, _, _, _, hfil, _⟩ :=
    handler_new_job_spec extract now msg q o (awareInstant o.remind_time)
      hwf hok le_rfl
  rw [hfil]
  simp [send_reminder, mkJob]

/-- Claim C9 witness: on the scenario input the fired delivery goes to
chat 42, the chat the triggering message arrived in. -/
theorem reminder_delivered_to_originating_chat_witness :
    ((outCallSam.queue.firedAt (awareInstant outCallSam.remind_time)).filter
        (fun j => j.id == outCallSam.jobId)).map
        (fun j => (send_reminder j).chat_id)
      = [msgCallSam.chat_id] :=
  reminder_delivered_to_originating_chat (extractStub exCallSam) nowJan1
    msgCallSam emptyQueue outCallSam emptyQueue_wf (by rfl)

/-- Claim C10: the outbound text of a fired reminder with task `t` is
exactly the string `Reminder: ` concatenated with `t`; the bare task is
never sent without the fixed prefix. -/
theorem reminder_text_has_fixed_prefix
    (extract : String → Extraction) (now : Int) (msg : Msg) (q : JobQueue)
    (o : HandlerOutput) (hwf : q.WF)
    (hok : handle_message extract now msg q = .ok o) :
    ((o.queue.firedAt (awareInstant o.remind_time)).filter
        (fun j => j.id == o.jobId)).map (fun j => (send_reminder j).text)
      = ["Reminder: " ++ (extract msg.text).task] := by
  obtain ⟨dt, _, _, _, hfil, _⟩ :=
    handler_new_job_spec extract now msg q o (awareInstant o.remind_time)
      hwf hok le_rfl
  rw [hfil]
  simp [send_reminder, mkJob]

/-- Claim C10 witness: on the scenario input the outbound message text is
`Reminder: call Sam`. -/
theorem reminder_text_has_fixed_prefix_witness :
    ((outCallSam.queue.firedAt (awareInstant outCallSam.remind_time)).filter
        (fun j => j.id == outCallSam.jobId)).map
        (fun j => (send_reminder j).text)
      = ["Reminder: " ++ (extractStub exCallSam msgCallSam.text).task] :=
  reminder_text_has_fixed_prefix (extractStub exCallSam) nowJan1
    msgCallSam emptyQueue outCallSam emptyQueue_wf (by rfl)

/-- Claim C3: when the extraction result's timestamp string does not parse
as a valid calendar instant, the handler hands the malformed-timestamp
error back to its caller as a value: no instant is fabricated and no
reminder is scheduled. -/
theorem malformed_timestamp_returns_error
    (extract : String → Extraction) (now : Int) (msg : Msg) (q : JobQueue)
    (hp : fromisoformat (extract msg.text).time = none) :
    handle_message extract now msg q = .error .malformedTimestamp := by
  simp [handle_message, hp]

/-- The extraction capability returning the timestamp text `not-a-date`. -/
def exNotADate : Extraction := ⟨"call Sam", "not-a-date"⟩

/-- Claim C3 witness: the timestamp text `not-a-date` does not parse, and
the handler returns the malformed-timestamp error value on it. -/
theorem malformed_timestamp_returns_error_witness :
    fromisoformat (extractStub exNotADate msgCallSam.text).time = none
    ∧ handle_message (extractStub exNotADate) nowJan1 msgCallSam emptyQueue
        = .error .malformedTimestamp :=
  ⟨by rfl, malformed_timestamp_returns_error (extractStub exNotADate) nowJan1
    msgCallSam emptyQueue (by rfl)⟩

/-- Whitespace-only test used to state the emptiness claims: true exactly
when every character is whitespace, i.e. the text trims to empty. (The
source itself never trims or checks the task.) -/
def isBlankTask (s : String) : Bool :=
  s.toList.all (fun c => c.isWhitespace)

/-- The extraction capability returning a whitespace-only task. -/
def exBlankTask : Extraction := ⟨"   ", "2024-01-02T14:00:00Z"⟩

/-- Claim C4 counterexample: the handler never checks the extracted task
for emptiness. On a whitespace-only task it succeeds — no `EmptyTask`
error exists anywhere in the code — and stores the reminder with the
whitespace-only task verbatim. -/
theorem empty_task_accepted_counterexample :
    isBlankTask "   " = true
    ∧ handle_message (extractStub exBlankTask) 0 ⟨"m", 7⟩ emptyQueue
        = .ok { queue := ⟨[⟨0, 7, "   ", 1704204000, 1704204000⟩], 1⟩,
                jobId := 0,
                remind_time := ⟨2024, 1, 2, 14, 0, 0, some 0⟩,
                reply := "Got it! I\x27ll remind you to     at 2024-01-02T14:00:00+00:00" } :=
  ⟨by rfl, by rfl⟩

/-- Claim C4 amended: the handler performs no emptiness validation on the
extracted task. Whenever the timestamp parses, it succeeds and stores the
task text verbatim in the scheduled reminder — including empty or
whitespace-only tasks. -/
theorem task_stored_verbatim_without_validation
    (extract : String → Extraction) (now : Int) (msg : Msg) (q : JobQueue)
    (dt : PyDatetime)
    (hp : fromisoformat (extract msg.text).time = some dt) :
    ∃ o, handle_message extract now msg q = .ok o
      ∧ o.queue.jobs.map (fun j => j.data)
          = q.jobs.map (fun j => j.data) ++ [(extract msg.text).task] :=
  ⟨_, handle_message_ok extract now msg q dt hp, by simp [mkJob_data]⟩

/-- Claim C4 amended witness: the whitespace-only task `   ` is scheduled
unchanged. -/
theorem task_stored_verbatim_without_validation_witness :
    ∃ o, handle_message (extractStub exBlankTask) 0 ⟨"m", 7⟩ emptyQueue = .ok o
      ∧ o.queue.jobs.map (fun j => j.data)
          = emptyQueue.jobs.map (fun j => j.data)
            ++ [(extractStub exBlankTask (Msg.mk "m" 7).text).task] :=
  task_stored_verbatim_without_validation (extractStub exBlankTask) 0 ⟨"m", 7⟩
    emptyQueue ⟨2024, 1, 2, 14, 0, 0, some 0⟩ (by rfl)

/-- Claim C5: a successfully parsed timestamp carrying no UTC offset is
tagged UTC with its clock fields untouched — never shifted as local time —
and the handler arms the job at that clock reading taken as a UTC instant. -/
theorem naive_timestamp_interpreted_utc
    (extract : String → Extraction) (now : Int) (msg : Msg) (q : JobQueue)
    (dt : PyDatetime)
    (hp : fromisoformat (extract msg.text).time = some dt)
    (hnaive : dt.tzOffsetMinutes = none) :
    ∃ o, handle_message extract now msg q = .ok o
      ∧ o.remind_time = { dt with tzOffsetMinutes := some 0 }
      ∧ awareInstant o.remind_time = naiveEpochSeconds dt
      ∧ o.queue.jobs.map (fun j => j.runAt)
          = q.jobs.map (fun j => j.runAt) ++ [naiveEpochSeconds dt] := by
  have hn : normalizeUTC dt = { dt with tzOffsetMinutes := some 0 } := by
    simp [normalizeUTC, hnaive]
  refine ⟨_, handle_message_ok extract now msg q dt hp, hn, ?_, ?_⟩
  · simp [hn, awareInstant, naiveEpochSeconds]
  · simp [mkJob_runAt, hn, awareInstant, naiveEpochSeconds]

/-- The extraction capability returning a UTC-naive timestamp. -/
def exNaiveTime : Extraction := ⟨"water plants", "2024-01-02T14:00:00"⟩

/-- Claim C5 witness: `2024-01-02T14:00:00` (no offset) is tagged UTC and
armed at the corresponding UTC instant. -/
theorem naive_timestamp_interpreted_utc_witness :
    ∃ o, handle_message (extractStub exNaiveTime) nowJan1 msgCallSam emptyQueue
        = .ok o
      ∧ o.remind_time
          = { PyDatetime.mk 2024 1 2 14 0 0 none with tzOffsetMinutes := some 0 }
      ∧ awareInstant o.remind_time
          = naiveEpochSeconds ⟨2024, 1, 2, 14, 0, 0, none⟩
      ∧ o.queue.jobs.map (fun j => j.runAt)
          = emptyQueue.jobs.map (fun j => j.runAt)
            ++ [naiveEpochSeconds ⟨2024, 1, 2, 14, 0, 0, none⟩] :=
  naive_timestamp_interpreted_utc (extractStub exNaiveTime) nowJan1 msgCallSam
    emptyQueue ⟨2024, 1, 2, 14, 0, 0, none⟩ (by rfl) (by rfl)

/-- The extraction capability returning a fire time already in the past. -/
def exPastTime : Extraction := ⟨"water plants", "2024-01-01T00:00:00Z"⟩

/-- Claim C6 counterexample: with a fire time one day before `now`, the
handler passes the raw computed delay `-86400` seconds to `run_once` —
the delay is not clamped to zero anywhere in the code; what happens to a
negative delay is left entirely to the job-queue framework. -/
theorem negative_delay_not_clamped_counterexample :
    handle_message (extractStub exPastTime) (1704067200 + 86400) ⟨"m", 5⟩
        emptyQueue
      = .ok { queue := ⟨[⟨0, 5, "water plants", -86400, 1704067200⟩], 1⟩,
              jobId := 0,
              remind_time := ⟨2024, 1, 1, 0, 0, 0, some 0⟩,
              reply := "Got it! I\x27ll remind you to water plants at 2024-01-01T00:00:00+00:00" }
    ∧ (-86400 : Int) ≠ 0 :=
  ⟨by rfl, by decide⟩

/-- Claim C6 amended: when the computed delay `fire_at - now` is zero or
negative the handler still succeeds — the request is never rejected — and
arms the job with the raw, unclamped delay, so its run time is already at
or before `now` when it is armed. The source implements no immediate-fire
policy of its own: whether the framework then runs or misfire-skips such
an already-overdue job is decided by its misfire policy (the call passes
no `job_kwargs`), outside this embedding. -/
theorem past_due_request_accepted_with_unclamped_delay
    (extract : String → Extraction) (now : Int) (msg : Msg) (q : JobQueue)
    (dt : PyDatetime)
    (hp : fromisoformat (extract msg.text).time = some dt)
    (hpast : awareInstant (normalizeUTC dt) - now ≤ 0) :
    ∃ o, handle_message extract now msg q = .ok o
      ∧ o.queue.jobs.map (fun j => (j.delay, j.runAt))
          = q.jobs.map (fun j => (j.delay, j.runAt))
            ++ [(awareInstant (normalizeUTC dt) - now,
                 now + (awareInstant (normalizeUTC dt) - now))]
      ∧ now + (awareInstant (normalizeUTC dt) - now) ≤ now :=
  ⟨_, handle_message_ok extract now msg q dt hp, by simp [mkJob], by omega⟩

/-- Claim C6 amended witness: the request whose fire time lies a day in
the past is accepted, and its job is armed with the unclamped delay
`-86400`, already due at arming. -/
theorem past_due_request_accepted_with_unclamped_delay_witness :
    ∃ o, handle_message (extractStub exPastTime) (1704067200 + 86400) ⟨"m", 5⟩
          emptyQueue = .ok o
      ∧ o.queue.jobs.map (fun j => (j.delay, j.runAt))
          = emptyQueue.jobs.map (fun j => (j.delay, j.runAt))
            ++ [(awareInstant (normalizeUTC ⟨2024, 1, 1, 0, 0, 0, some 0⟩)
                   - (1704067200 + 86400),
                 (1704067200 + 86400)
                   + (awareInstant (normalizeUTC ⟨2024, 1, 1, 0, 0, 0, some 0⟩)
                       - (1704067200 + 86400)))]
      ∧ (1704067200 + 86400)
          + (awareInstant (normalizeUTC ⟨2024, 1, 1, 0, 0, 0, some 0⟩)
              - (1704067200 + 86400))
        ≤ 1704067200 + 86400 :=
  past_due_request_accepted_with_unclamped_delay (extractStub exPastTime)
    (1704067200 + 86400) ⟨"m", 5⟩ emptyQueue ⟨2024, 1, 1, 0, 0, 0, some 0⟩
    (by rfl) (by decide)

/-- Claim C7: a timestamp with an explicit offset and the UTC-naive
timestamp reading the same instant (the aware one converted to UTC and
stripped of its offset) normalize to identical fire-at instants. -/
theorem offset_and_naive_equivalent_fire_at
    (s1 s2 : String) (dt1 dt2 : PyDatetime) (off : Int)
    (_hs1 : fromisoformat s1 = some dt1)
    (hoff : dt1.tzOffsetMinutes = some off)
    (_hs2 : fromisoformat s2 = some dt2)
    (hnaive : dt2.tzOffsetMinutes = none)
    (hsame : naiveEpochSeconds dt2 = awareInstant dt1) :
    awareInstant (normalizeUTC dt1) = awareInstant (normalizeUTC dt2) := by
  have e1 : normalizeUTC dt1 = dt1 := by simp [normalizeUTC, hoff]
  have e2 : normalizeUTC dt2 = { dt2 with tzOffsetMinutes := some 0 } := by
    simp [normalizeUTC, hnaive]
  have e3 : awareInstant { dt2 with tzOffsetMinutes := some 0 }
      = naiveEpochSeconds dt2 := by
    simp [awareInstant, naiveEpochSeconds]
  rw [e1, e2, e3, hsame]

/-- Claim C7 witness: `2024-01-02T14:00:00+02:00` and its UTC-naive
equivalent `2024-01-02T12:00:00` yield the same fire instant. -/
theorem offset_and_naive_equivalent_fire_at_witness :
    awareInstant (normalizeUTC ⟨2024, 1, 2, 14, 0, 0, some 120⟩)
      = awareInstant (normalizeUTC ⟨2024, 1, 2, 12, 0, 0, none⟩) :=
  offset_and_naive_equivalent_fire_at "2024-01-02T14:00:00+02:00"
    "2024-01-02T12:00:00" ⟨2024, 1, 2, 14, 0, 0, some 120⟩
    ⟨2024, 1, 2, 12, 0, 0, none⟩ 120 (by rfl) (by rfl) (by rfl) (by rfl)
    (by rfl)

/-- Schedule a batch of `(chat, task, delay)` requests one after another
through `run_once`, collecting the handles it returns. -/
def scheduleAll (q : JobQueue) (now : Int) :
    List (Int × String × Int) → JobQueue × List Nat
  | [] => (q, [])
  | r :: rs =>
    let fst := q.runOnce r.1 r.2.1 r.2.2 now
    let rest := scheduleAll fst.1 now rs
    (rest.1, fst.2 :: rest.2)

theorem scheduleAll_ids (now : Int) (rs : List (Int × String × Int)) :
    ∀ q : JobQueue, (scheduleAll q now rs).2 = List.range' q.nextId rs.length := by
  induction rs with
  | nil => intro q; rfl
  | cons r rs ih =>
    intro q
    simp [scheduleAll, JobQueue.runOnce, List.range'_succ, ih]

theorem scheduleAll_jobs_mono (now : Int) (rs : List (Int × String × Int)) :
    ∀ q : JobQueue, ∀ j ∈ q.jobs, j ∈ (scheduleAll q now rs).1.jobs := by
  induction rs with
  | nil => intro q j hj; exact hj
  | cons r rs ih =>
    intro q j hj
    apply ih
    exact List.mem_append_left _ hj

theorem scheduleAll_mem_job (now : Int) (rs : List (Int × String × Int)) :
    ∀ q : JobQueue, ∀ i ∈ (scheduleAll q now rs).2,
      ∃ j ∈ (scheduleAll q now rs).1.jobs, j.id = i := by
  induction rs with
  | nil => intro q i hi; simp [scheduleAll] at hi
  | cons r rs ih =>
    intro q i hi
    rcases List.mem_cons.mp hi with rfl | hmem
    · have hnew : ScheduledJob.mk q.nextId r.1 r.2.1 r.2.2 (now + r.2.2)
          ∈ (q.runOnce r.1 r.2.1 r.2.2 now).1.jobs :=
        List.mem_append_right _ (List.mem_singleton_self _)
      exact ⟨_, scheduleAll_jobs_mono now rs _ _ hnew, rfl⟩
    · exact ih _ i hmem

/-- Claim C8: every successful schedule call returns a fresh handle:
across any batch of schedule calls the handles returned are pairwise
distinct and distinct from every handle already in the registry; each
names a pending job in the registry, and handing it to
`schedule_removal` cancels exactly that reminder. -/
theorem schedule_returns_unique_usable_id
    (q : JobQueue) (now : Int) (rs : List (Int × String × Int))
    (hwf : q.WF) :
    (scheduleAll q now rs).2.Nodup
    ∧ (∀ i ∈ (scheduleAll q now rs).2, ∀ j ∈ q.jobs, j.id ≠ i)
    ∧ (∀ i ∈ (scheduleAll q now rs).2,
        ∃ j ∈ (scheduleAll q now rs).1.jobs, j.id = i)
    ∧ ∀ i ∈ (scheduleAll q now rs).2,
        ∀ j ∈ ((scheduleAll q now rs).1.schedule_removal i).jobs, j.id ≠ i := by
  refine ⟨?_, ?_, scheduleAll_mem_job now rs q, ?_⟩
  · rw [scheduleAll_ids]
    exact List.nodup_range' _ _ 1 Nat.one_pos
  · intro i hi j hj
    rw [scheduleAll_ids] at hi
    have hge := (List.mem_range'_1.mp hi).1
    exact Nat.ne_of_lt (lt_of_lt_of_le (hwf j hj) hge)
  · intro i hi j hj
    simp only [JobQueue.schedule_removal, List.mem_filter,
      decide_eq_true_eq] at hj
    exact hj.2

/-- Claim C8 witness: scheduling two requests on the empty registry hands
back distinct usable handles. -/
theorem schedule_returns_unique_usable_id_witness :
    (scheduleAll emptyQueue 0 [(1, "a", 10), (2, "b", 20)]).2.Nodup
    ∧ (∀ i ∈ (scheduleAll emptyQueue 0 [(1, "a", 10), (2, "b", 20)]).2,
        ∀ j ∈ emptyQueue.jobs, j.id ≠ i)
    ∧ (∀ i ∈ (scheduleAll emptyQueue 0 [(1, "a", 10), (2, "b", 20)]).2,
        ∃ j ∈ (scheduleAll emptyQueue 0 [(1, "a", 10), (2, "b", 20)]).1.jobs,
          j.id = i)
    ∧ ∀ i ∈ (scheduleAll emptyQueue 0 [(1, "a", 10), (2, "b", 20)]).2,
        ∀ j ∈ ((scheduleAll emptyQueue 0
            [(1, "a", 10), (2, "b", 20)]).1.schedule_removal i).jobs,
          j.id ≠ i :=
  schedule_returns_unique_usable_id emptyQueue 0 [(1, "a", 10), (2, "b", 20)]
    emptyQueue_wf
